import Mathlib

/-!
# Savings tracker: a shallow embedding of `src/script.js`

The script keeps four settings (`GOAL`, `STEP`, `CONFETTI_ENABLED`,
`CONFETTI_INTERVAL`), a running `previousTotal`, a grid of check boxes in the
page and two records in `localStorage`.  Here the page and the storage are
fields of an explicit state, every function of the script that touches them is
a function on that state, and the visual effects a call produces (confetti
bursts, showing or hiding the message) are returned as a list, in the order the
script performs them.

JavaScript numbers are modelled as integers (`Int`), that is, in the range where
doubles are exact: amounts, steps and intervals that are not whole numbers are
outside the model.  `Infinity` shows up only as the box count of `buildGrid`
when `STEP` is zero, where the loop of the script never ends.

`buildGrid` spreads the whole set of stored values into one call,
`Math.max(...savedChecked)`, and a JavaScript engine throws a `RangeError` when a
call gets more arguments than it accepts.  That limit belongs to the engine, not
to the script, so it is a parameter `maxArgs` of `buildGrid` and of its callers
`init` and `applySettingsFromInputs`.  A call therefore has an `Outcome`: it
returns, it throws and leaves the page in some state, or it does not end.

The storage holds what was last written to it: a write is taken to succeed, and
a read that fails in the script is the same as an absent record here (`[]` for
the checked values, `none` for the settings).  A stored settings field that is
missing or not a number is `none` in `SettingsRecord`; a form field whose text
is not a number is `none` in `SettingsInputs`.
-/

namespace SavingsTracker

/-! ## Constants and settings (script.js 1-13) -/

def DEFAULT_STEP : Int := 1000

def DEFAULT_GOAL : Int := 100000

def DEFAULT_CONFETTI_INTERVAL : Int := 10000

/-- The four global settings variables of the script. -/
structure Settings where
  GOAL : Int
  STEP : Int
  CONFETTI_ENABLED : Bool
  CONFETTI_INTERVAL : Int
deriving DecidableEq, Repr

/-- Values of the settings variables when the script starts (lines 10-13). -/
def defaultSettings : Settings :=
  { GOAL := DEFAULT_GOAL, STEP := DEFAULT_STEP, CONFETTI_ENABLED := true,
    CONFETTI_INTERVAL := DEFAULT_CONFETTI_INTERVAL }

/-- The object `loadSettings` returns when the stored record parses to an object.
A field is `none` when it is missing or fails the `typeof` test of `init`. -/
structure SettingsRecord where
  goal : Option Int
  step : Option Int
  confettiEnabled : Option Bool
  confettiInterval : Option Int
deriving DecidableEq, Repr

/-- One check box of the grid: `dataset.value` and `checked`. -/
structure Box where
  value : Int
  checked : Bool
deriving DecidableEq, Repr

/-- Visual effects of the celebration code, as they reach the page. -/
inductive Effect where
  | hideCelebrationMessage
  | confettiPieces (count : Nat)
  | showCelebrationMessage (text : String)
deriving DecidableEq, Repr

/-- The mutable state of the page: settings variables, `previousTotal`, the check
boxes of `#grid`, and the two `localStorage` records as `loadChecked` and
`loadSettings` read them. -/
structure AppState where
  settings : Settings
  previousTotal : Int
  grid : List Box
  storedChecked : List Int
  storedSettings : Option SettingsRecord
deriving DecidableEq, Repr

/-- How a call of a function of the script ends: it returns a value, it throws
an uncaught `RangeError` and leaves the page in the given state, or it does not
end. -/
inductive Outcome (α : Type) where
  | returned (value : α)
  | threw (st : AppState)
  | diverges
deriving DecidableEq, Repr

/-- The rest of a function body, run on the value of a call that returned. -/
def Outcome.map {α β : Type} (f : α → β) : Outcome α → Outcome β
  | Outcome.returned a => Outcome.returned (f a)
  | Outcome.threw st => Outcome.threw st
  | Outcome.diverges => Outcome.diverges

/-! ## Arithmetic of the script on integers -/

/-- The value of `Math.floor(a / b)` for integers `a` and `b ≠ 0`. -/
def mathFloorDiv (a b : Int) : Int := Int.fdiv a b

/-- The value of `Math.round(a / b)` for integers `a` and `b ≠ 0`: JavaScript
rounds halves upwards, so it is the floor of `a / b + 1 / 2`. -/
def mathRoundDiv (a b : Int) : Int := Int.fdiv (2 * a + b) (2 * b)

/-! ## Persistence (script.js 46-91) -/

/-- Function `loadChecked`: the stored array, or `[]` when there is none. -/
def loadChecked (st : AppState) : List Int := st.storedChecked

/-- Function `saveChecked`: overwrites the stored array. -/
def saveChecked (st : AppState) (checkedValues : List Int) : AppState :=
  { st with storedChecked := checkedValues }

/-- Function `loadSettings`. -/
def loadSettings (st : AppState) : Option SettingsRecord := st.storedSettings

/-- Function `saveSettings`: stores the four current settings. -/
def saveSettings (st : AppState) : AppState :=
  let obj : SettingsRecord :=
    { goal := some st.settings.GOAL, step := some st.settings.STEP,
      confettiEnabled := some st.settings.CONFETTI_ENABLED,
      confettiInterval := some st.settings.CONFETTI_INTERVAL }
  { st with storedSettings := some obj }

/-! ## Confetti and celebration (script.js 93-155) -/

def celebrationText : String := "Gratulerer! Du nådde sparemålet ditt 🎉"

/-- Function `launchConfetti(big)`: nothing when confetti is disabled, otherwise
180 pieces for a big burst and 80 for a small one. -/
def launchConfetti (s : Settings) (big : Bool) : List Effect :=
  if !s.CONFETTI_ENABLED then []
  else [Effect.confettiPieces (if big then 180 else 80)]

/-- Function `maybeCelebrate(prevTotal, newTotal)`. -/
def maybeCelebrate (s : Settings) (prevTotal newTotal : Int) : List Effect :=
  let hide : List Effect :=
    if newTotal < s.GOAL then [Effect.hideCelebrationMessage] else []
  if newTotal ≤ prevTotal then hide
  else
    let small : List Effect :=
      if s.CONFETTI_ENABLED && decide (s.CONFETTI_INTERVAL > 0) then
        let prevMilestone := mathFloorDiv prevTotal s.CONFETTI_INTERVAL
        let newMilestone := mathFloorDiv newTotal s.CONFETTI_INTERVAL
        if newMilestone > prevMilestone then launchConfetti s false else []
      else []
    let big : List Effect :=
      if prevTotal < s.GOAL ∧ newTotal ≥ s.GOAL then
        launchConfetti s true ++ [Effect.showCelebrationMessage celebrationText]
      else []
    hide ++ small ++ big

/-! ## Summary (script.js 159-186) -/

/-- The number of checked boxes, as counted by the loop of `updateSummary`. -/
def checkedCount (grid : List Box) : Nat := (grid.filter (fun cb => cb.checked)).length

/-- The local `totalAmount` of `updateSummary`. -/
def totalAmount (st : AppState) : Int := (checkedCount st.grid : Int) * st.settings.STEP

/-- Function `updateSummary`: evaluates the celebration for the step from
`previousTotal` to the new total, then stores the new total in `previousTotal`. -/
def updateSummary (st : AppState) : AppState × List Effect :=
  let total := totalAmount st
  ({ st with previousTotal := total }, maybeCelebrate st.settings st.previousTotal total)

/-! ## Grid (script.js 190-265) -/

/-- The local `boxCount` of `buildGrid`, `Math.max(1, Math.round(GOAL / STEP))`.
`none` stands for `Infinity` (a positive goal over step zero), for which the loop
never ends; `0 / 0` is `NaN`, for which the loop body never runs. -/
def boxCount (goal step : Int) : Option Nat :=
  if step = 0 then
    if goal > 0 then none
    else if goal = 0 then some 0
    else some 1
  else some (max 1 (mathRoundDiv goal step)).toNat

/-- The local `maxSavedValue` of `buildGrid` (lines 192-200): zero for an empty
set, otherwise `Math.max(...savedChecked)` over the set made from the stored
array. `none` is the `RangeError` of the spread call when the set has more
than `maxArgs` elements. -/
def maxSavedValue (maxArgs : Nat) (saved : List Int) : Option Int :=
  let savedChecked := saved.dedup
  match savedChecked with
  | [] => some 0
  | x :: xs => if savedChecked.length > maxArgs then none else some (xs.foldl max x)

/-- The boxes `buildGrid` creates in its loop `for (let i = 1; i <= boxCount; i++)`. -/
def buildBoxes (n : Nat) (step maxSaved : Int) : List Box :=
  (List.range n).map fun (j : Nat) =>
    let value := ((j : Int) + 1) * step
    { value := value, checked := decide (value ≤ maxSaved) }

/-- Function `buildGrid`: empties the grid, then fills it with boxes built from
the settings and the stored checked values. It throws, with the grid left
empty, when `Math.max(...savedChecked)` does; otherwise it does not end when
the box count is `Infinity`. -/
def buildGrid (maxArgs : Nat) (st : AppState) : Outcome AppState :=
  let cleared := { st with grid := [] }
  match maxSavedValue maxArgs (loadChecked cleared) with
  | none => Outcome.threw cleared
  | some maxSaved =>
    match boxCount cleared.settings.GOAL cleared.settings.STEP with
    | none => Outcome.diverges
    | some n =>
      Outcome.returned { cleared with grid := buildBoxes n cleared.settings.STEP maxSaved }

/-- The browser's part of a click on box `k`: its `checked` becomes `d`,
before the `change` listener runs. -/
def setChecked (grid : List Box) (k : Nat) (d : Bool) : List Box :=
  grid.modify (fun cb => { cb with checked := d }) k

/-- The `newCheckedCount` of the `change` listener of the box at 0-based `index`,
read from `input.checked` of that box. -/
def newCheckedCount (grid : List Box) (index : Nat) : Nat :=
  if (grid[index]?).any (fun cb => cb.checked) then index + 1 else index

/-- The first `forEach` of the listener: box `idx` is checked iff `idx < count`. -/
def applyRule (grid : List Box) (count : Nat) : List Box :=
  grid.mapIdx fun idx cb => { cb with checked := decide (idx < count) }

/-- The second `forEach` of the listener: the values of the checked boxes. -/
def newCheckedValues (grid : List Box) : List Int :=
  (grid.filter (fun cb => cb.checked)).map (fun cb => cb.value)

/-- The `change` listener of the box at 0-based position `index`. -/
def changeHandler (st : AppState) (index : Nat) : AppState × List Effect :=
  let grid := applyRule st.grid (newCheckedCount st.grid index)
  updateSummary (saveChecked { st with grid := grid } (newCheckedValues grid))

/-- A user toggle of box `k` to `d`: the browser flips the box, then the
listener runs. -/
def toggle (st : AppState) (k : Nat) (d : Bool) : AppState × List Effect :=
  changeHandler { st with grid := setChecked st.grid k d } k

/-- The state after a sequence of toggles, each given as (index, direction). -/
def runToggles (st : AppState) (events : List (Nat × Bool)) : AppState :=
  events.foldl (fun s e => (toggle s e.1 e.2).1) st

/-! ## Settings dialog (script.js 283-301) -/

/-- The raw contents of the settings form: a numeric field is `none` when
`Number(input.value)` is `NaN`. -/
structure SettingsInputs where
  goal : Option Int
  step : Option Int
  confettiInterval : Option Int
  confetti : Bool
deriving DecidableEq, Repr

/-- The value of `Number(input.value) || fallback`. -/
def numberOr (raw : Option Int) (fallback : Int) : Int :=
  match raw with
  | some n => if n = 0 then fallback else n
  | none => fallback

/-- The settings `applySettingsFromInputs` assigns (lines 284-293). -/
def settingsFromInputs (s : Settings) (inp : SettingsInputs) : Settings :=
  let newGoal := numberOr inp.goal s.GOAL
  let newStep := numberOr inp.step s.STEP
  let newInterval := numberOr inp.confettiInterval DEFAULT_CONFETTI_INTERVAL
  let newConfettiEnabled := inp.confetti
  { GOAL := max 1000 newGoal, STEP := max 1 newStep,
    CONFETTI_INTERVAL := max 1 newInterval, CONFETTI_ENABLED := newConfettiEnabled }

/-- The state of `applySettingsFromInputs` just before its final call of
`updateSummary` (lines 284-299). When `buildGrid` throws, line 299 is not
reached and `previousTotal` keeps its value. -/
def applySettingsBeforeSummary (maxArgs : Nat) (st : AppState) (inp : SettingsInputs) :
    Outcome AppState :=
  let st1 := saveSettings { st with settings := settingsFromInputs st.settings inp }
  (buildGrid maxArgs st1).map fun st2 => { st2 with previousTotal := 0 }

/-- Function `applySettingsFromInputs`. -/
def applySettingsFromInputs (maxArgs : Nat) (st : AppState) (inp : SettingsInputs) :
    Outcome (AppState × List Effect) :=
  (applySettingsBeforeSummary maxArgs st inp).map updateSummary

/-! ## Start (script.js 305-335) -/

/-- The settings after the first block of `init` (lines 307-315). -/
def initSettings (s : Settings) (loaded : Option SettingsRecord) : Settings :=
  match loaded with
  | none => s
  | some r =>
    { GOAL := r.goal.getD s.GOAL, STEP := r.step.getD s.STEP,
      CONFETTI_ENABLED := r.confettiEnabled.getD s.CONFETTI_ENABLED,
      CONFETTI_INTERVAL := r.confettiInterval.getD s.CONFETTI_INTERVAL }

/-- The state of `init` just before its call of `updateSummary` (lines 307-320).
When `buildGrid` throws, the rest of `init` is not run. -/
def initBeforeSummary (maxArgs : Nat) (st : AppState) : Outcome AppState :=
  let st1 := { st with settings := initSettings st.settings (loadSettings st) }
  (buildGrid maxArgs st1).map fun st2 =>
    let checked := loadChecked st2
    { st2 with previousTotal := (checked.length : Int) * st2.settings.STEP }

/-- Function `init` (the listeners it installs are `toggle` and
`applySettingsFromInputs`). -/
def init (maxArgs : Nat) (st : AppState) : Outcome (AppState × List Effect) :=
  (initBeforeSummary maxArgs st).map updateSummary

/-- The state in which the script starts, given the contents of the storage. -/
def startState (storedSettings : Option SettingsRecord) (storedChecked : List Int) : AppState :=
  { settings := defaultSettings, previousTotal := 0, grid := [],
    storedChecked := storedChecked, storedSettings := storedSettings }

/-! ## Properties used in the statements -/

/-- The checked boxes are a leading run of the grid: a checked box at position
`i` has every box before it checked. -/
def LeadingRun (grid : List Box) : Prop :=
  ∀ i j : Nat, j < i → (grid[i]?).map (fun cb => cb.checked) = some true →
    (grid[j]?).map (fun cb => cb.checked) = some true

/-- The grid of `n` boxes valued `step`, `2 * step`, ... whose first `c` boxes
are checked. -/
def leadingGrid (n : Nat) (step : Int) (c : Nat) : List Box :=
  (List.range n).map fun (j : Nat) =>
    { value := ((j : Int) + 1) * step, checked := decide (j < c) }

/-- The maximum of the stored values (zero for none): what `maxSavedValue` is
when `Math.max(...savedChecked)` returns. -/
def savedMax (saved : List Int) : Int :=
  match saved.dedup with
  | [] => 0
  | x :: xs => xs.foldl max x

/-- Settings within the ranges of the data model. -/
def Settings.Valid (s : Settings) : Prop :=
  1000 ≤ s.GOAL ∧ 1 ≤ s.STEP ∧ 1 ≤ s.CONFETTI_INTERVAL

instance (s : Settings) : Decidable s.Valid :=
  inferInstanceAs (Decidable (1000 ≤ s.GOAL ∧ 1 ≤ s.STEP ∧ 1 ≤ s.CONFETTI_INTERVAL))

/-- The page with goal 130000 and step 1 before its grid is built, nothing
checked so far. -/
def roundTripStart : AppState :=
  { startState (some ⟨some 130000, some 1, some true, some 10000⟩) [] with
    settings := ⟨130000, 1, true, 10000⟩ }

/-- The state used against the rebuild count as stated: goal 5000, step 1000,
stored values `[9000]`. -/
def rebuildCountInput : AppState :=
  { startState none [9000] with settings := ⟨5000, 1000, true, 10000⟩ }

/-! ## Lemmas on the grid -/

theorem length_setChecked (grid : List Box) (k : Nat) (d : Bool) :
    (setChecked grid k d).length = grid.length := by
  simp [setChecked]

theorem length_applyRule (grid : List Box) (c : Nat) :
    (applyRule grid c).length = grid.length := by
  simp [applyRule]

theorem getElem?_applyRule (grid : List Box) (c i : Nat) :
    (applyRule grid c)[i]? =
      (grid[i]?).map fun cb => { cb with checked := decide (i < c) } := by
  simp [applyRule]

theorem newCheckedCount_setChecked (grid : List Box) (k : Nat) (d : Bool)
    (hk : k < grid.length) :
    newCheckedCount (setChecked grid k d) k = if d then k + 1 else k := by
  unfold newCheckedCount setChecked
  rw [List.getElem?_modify_eq, List.getElem?_eq_getElem hk]
  cases d <;> simp

theorem grid_toggle (st : AppState) (k : Nat) (d : Bool) :
    (toggle st k d).1.grid =
      applyRule (setChecked st.grid k d) (newCheckedCount (setChecked st.grid k d) k) := by
  simp [toggle, changeHandler, updateSummary, saveChecked]

theorem settings_toggle (st : AppState) (k : Nat) (d : Bool) :
    (toggle st k d).1.settings = st.settings := by
  simp [toggle, changeHandler, updateSummary, saveChecked]

theorem length_grid_toggle (st : AppState) (k : Nat) (d : Bool) :
    (toggle st k d).1.grid.length = st.grid.length := by
  rw [grid_toggle, length_applyRule, length_setChecked]

theorem leadingRun_applyRule (grid : List Box) (c : Nat) :
    LeadingRun (applyRule grid c) := by
  intro i j hji hi
  rw [getElem?_applyRule] at hi ⊢
  cases hgi : grid[i]? with
  | none => simp [hgi] at hi
  | some bi =>
    have hilt : i < grid.length := by
      by_contra hcon
      rw [List.getElem?_eq_none (Nat.le_of_not_lt hcon)] at hgi
      exact Option.noConfusion hgi
    have hjlt : j < grid.length := Nat.lt_trans hji hilt
    simp only [hgi, Option.map_some', Option.some.injEq, decide_eq_true_eq] at hi
    rw [List.getElem?_eq_getElem hjlt]
    simp only [Option.map_some', Option.some.injEq, decide_eq_true_eq]
    omega

theorem getElem?_buildBoxes (n : Nat) (step maxSaved : Int) (i : Nat) :
    (buildBoxes n step maxSaved)[i]? =
      if i < n then
        some { value := ((i : Int) + 1) * step,
               checked := decide (((i : Int) + 1) * step ≤ maxSaved) }
      else none := by
  unfold buildBoxes
  rw [List.getElem?_map]
  by_cases h : i < n
  · rw [List.getElem?_range h]
    simp [h]
  · rw [List.getElem?_eq_none (by simpa using h)]
    simp [h]

theorem leadingRun_buildBoxes (n : Nat) (step maxSaved : Int) (hs : 1 ≤ step) :
    LeadingRun (buildBoxes n step maxSaved) := by
  intro i j hji hi
  rw [getElem?_buildBoxes] at hi ⊢
  by_cases hin : i < n
  · have hjn : j < n := Nat.lt_trans hji hin
    simp only [hin, hjn, if_true, Option.map_some', Option.some.injEq,
      decide_eq_true_eq] at hi ⊢
    have h1 : ((j : Int) + 1) * step ≤ ((i : Int) + 1) * step := by
      apply Int.mul_le_mul_of_nonneg_right
      · omega
      · omega
    exact Int.le_trans h1 hi
  · simp [hin] at hi

theorem boxCount_of_pos (goal step : Int) (hs : 1 ≤ step) :
    boxCount goal step = some (max 1 (mathRoundDiv goal step)).toNat := by
  unfold boxCount
  have : step ≠ 0 := by omega
  simp [this]

theorem maxSavedValue_of_le (maxArgs : Nat) (saved : List Int)
    (h : saved.dedup.length ≤ maxArgs) :
    maxSavedValue maxArgs saved = some (savedMax saved) := by
  unfold maxSavedValue savedMax
  simp only []
  cases hd : saved.dedup with
  | nil => rfl
  | cons x xs =>
    rw [hd] at h
    simp only []
    rw [if_neg (Nat.not_lt.2 h)]

theorem maxSavedValue_of_gt (maxArgs : Nat) (saved : List Int)
    (h : maxArgs < saved.dedup.length) : maxSavedValue maxArgs saved = none := by
  unfold maxSavedValue
  simp only []
  cases hd : saved.dedup with
  | nil => rw [hd] at h; exact absurd h (Nat.not_lt_zero _)
  | cons x xs =>
    rw [hd] at h
    simp only []
    rw [if_pos h]

theorem buildGrid_returned (maxArgs : Nat) (st : AppState) (hs : 1 ≤ st.settings.STEP)
    (hlen : (loadChecked st).dedup.length ≤ maxArgs) :
    buildGrid maxArgs st = Outcome.returned { st with
      grid := buildBoxes (max 1 (mathRoundDiv st.settings.GOAL st.settings.STEP)).toNat
                st.settings.STEP (savedMax (loadChecked st)) } := by
  unfold buildGrid
  simp only []
  have h1 : maxSavedValue maxArgs (loadChecked { st with grid := [] }) =
      some (savedMax (loadChecked st)) := maxSavedValue_of_le maxArgs _ hlen
  rw [h1]
  simp only []
  rw [boxCount_of_pos _ _ hs]

theorem buildGrid_threw (maxArgs : Nat) (st : AppState)
    (hlen : maxArgs < (loadChecked st).dedup.length) :
    buildGrid maxArgs st = Outcome.threw { st with grid := [] } := by
  unfold buildGrid
  simp only []
  have h1 : maxSavedValue maxArgs (loadChecked { st with grid := [] }) = none :=
    maxSavedValue_of_gt maxArgs _ hlen
  rw [h1]

theorem buildGrid_mono (a b : Nat) (hab : a ≤ b) (st st2 : AppState)
    (h : buildGrid a st = Outcome.returned st2) : buildGrid b st = Outcome.returned st2 := by
  by_cases hlen : (loadChecked st).dedup.length ≤ a
  · unfold buildGrid at h ⊢
    simp only [] at h ⊢
    have h1 : maxSavedValue a (loadChecked { st with grid := [] }) =
        some (savedMax (loadChecked st)) := maxSavedValue_of_le a _ hlen
    have h2 : maxSavedValue b (loadChecked { st with grid := [] }) =
        some (savedMax (loadChecked st)) := maxSavedValue_of_le b _ (Nat.le_trans hlen hab)
    rw [h1] at h
    rw [h2]
    exact h
  · rw [buildGrid_threw a st (Nat.lt_of_not_le hlen)] at h
    exact Outcome.noConfusion h

theorem leadingRun_nil : LeadingRun [] := by
  intro i j _ hi
  simp at hi

theorem leadingRun_runToggles (events : List (Nat × Bool)) (st : AppState)
    (h : LeadingRun st.grid) : LeadingRun (runToggles st events).grid := by
  induction events generalizing st with
  | nil => exact h
  | cons e es ih =>
    unfold runToggles
    rw [List.foldl_cons]
    apply ih
    rw [grid_toggle]
    exact leadingRun_applyRule _ _

/-! ## Lemmas on the stored values and on counting -/

theorem foldl_max_eq (xs : List Int) (x V : Int) (hmem : V ∈ x :: xs)
    (hle : ∀ y ∈ x :: xs, y ≤ V) : xs.foldl max x = V := by
  induction xs generalizing x with
  | nil =>
    have h : V = x := by simpa using hmem
    rw [List.foldl_nil, h]
  | cons y ys ih =>
    rw [List.foldl_cons]
    have hx : x ≤ V := hle x (by simp)
    have hy : y ≤ V := hle y (by simp)
    apply ih
    · rcases List.mem_cons.1 hmem with h | h
      · subst h
        rw [max_eq_left hy]
        exact List.mem_cons_self _ _
      · rcases List.mem_cons.1 h with h2 | h2
        · subst h2
          rw [max_eq_right hx]
          exact List.mem_cons_self _ _
        · exact List.mem_cons_of_mem _ h2
    · intro z hz
      rcases List.mem_cons.1 hz with h | h
      · rw [h]
        exact max_le hx hy
      · exact hle z (by simp [h])

theorem savedMax_nil : savedMax [] = 0 := rfl

theorem savedMax_eq (saved : List Int) (V : Int) (hmem : V ∈ saved)
    (hle : ∀ y ∈ saved, y ≤ V) : savedMax saved = V := by
  unfold savedMax
  have hmem2 : V ∈ saved.dedup := List.mem_dedup.2 hmem
  have hle2 : ∀ y ∈ saved.dedup, y ≤ V := fun y hy => hle y (List.mem_dedup.1 hy)
  cases hd : saved.dedup with
  | nil => rw [hd] at hmem2; exact absurd hmem2 (List.not_mem_nil _)
  | cons x xs =>
    rw [hd] at hmem2 hle2
    exact foldl_max_eq xs x V hmem2 hle2

theorem filter_lt_range (n c : Nat) :
    (List.range n).filter (fun j => decide (j < c)) = List.range (min n c) := by
  induction n with
  | zero => simp
  | succ n ih =>
    rw [List.range_succ, List.filter_append, ih]
    by_cases h : n < c
    · have h1 : min (n + 1) c = n + 1 := by omega
      have h2 : min n c = n := by omega
      rw [h1, h2, List.range_succ]
      simp [h]
    · have h1 : min (n + 1) c = c := by omega
      have h2 : min n c = c := by omega
      rw [h1, h2]
      simp [h]

theorem checkedCount_leadingGrid (n : Nat) (step : Int) (c : Nat) :
    checkedCount (leadingGrid n step c) = min n c := by
  unfold checkedCount leadingGrid
  rw [List.filter_map, List.length_map]
  have : ((fun cb : Box => cb.checked) ∘ fun (j : Nat) =>
      ({ value := ((j : Int) + 1) * step, checked := decide (j < c) } : Box)) =
      fun j => decide (j < c) := by
    funext j; rfl
  rw [this, filter_lt_range, List.length_range]

theorem newCheckedValues_leadingGrid (n : Nat) (step : Int) (c : Nat) (hc : c ≤ n) :
    newCheckedValues (leadingGrid n step c) =
      (List.range c).map fun (j : Nat) => ((j : Int) + 1) * step := by
  unfold newCheckedValues leadingGrid
  rw [List.filter_map, List.map_map]
  have : ((fun cb : Box => cb.checked) ∘ fun (j : Nat) =>
      ({ value := ((j : Int) + 1) * step, checked := decide (j < c) } : Box)) =
      fun j => decide (j < c) := by
    funext j; rfl
  rw [this, filter_lt_range, Nat.min_eq_right hc]
  rfl

theorem buildBoxes_eq_leadingGrid (n : Nat) (step maxSaved : Int) (hs : 1 ≤ step) :
    buildBoxes n step maxSaved = leadingGrid n step (maxSaved / step).toNat := by
  unfold buildBoxes leadingGrid
  apply List.map_congr_left
  intro j _
  have hpos : 0 < step := by omega
  have hiff : ((j : Int) + 1) * step ≤ maxSaved ↔ j < (maxSaved / step).toNat := by
    rw [← Int.le_ediv_iff_mul_le hpos]
    omega
  simp only [hiff]

theorem savedMax_leading (c : Nat) (step : Int) (hs : 1 ≤ step) :
    savedMax ((List.range c).map fun (j : Nat) => ((j : Int) + 1) * step) =
      (c : Int) * step := by
  cases c with
  | zero => simp [savedMax_nil]
  | succ c =>
    apply savedMax_eq
    · rw [List.mem_map]
      exact ⟨c, List.mem_range.2 (Nat.lt_succ_self c), by push_cast; rfl⟩
    · intro y hy
      rw [List.mem_map] at hy
      obtain ⟨j, hj, rfl⟩ := hy
      have hj2 : j < c + 1 := List.mem_range.1 hj
      apply Int.mul_le_mul_of_nonneg_right
      · push_cast; omega
      · omega

theorem grid_toggle_eq_leadingGrid (st : AppState) (n : Nat) (step : Int)
    (hgrid : st.grid.map (fun cb => cb.value) =
      (List.range n).map fun (j : Nat) => ((j : Int) + 1) * step)
    (k : Nat) (d : Bool) (hk : k < n) :
    (toggle st k d).1.grid = leadingGrid n step (if d then k + 1 else k) := by
  have hlen : st.grid.length = n := by
    have := congrArg List.length hgrid
    simpa using this
  rw [grid_toggle, newCheckedCount_setChecked _ _ _ (by rw [hlen]; exact hk)]
  apply List.ext_getElem?
  intro i
  have hv := congrArg (fun l => l[i]?) hgrid
  simp only [List.getElem?_map] at hv
  simp only [getElem?_applyRule, setChecked, List.getElem?_modify, leadingGrid,
    List.getElem?_map]
  by_cases hi : i < n
  · rw [List.getElem?_range hi] at hv ⊢
    rw [List.getElem?_eq_getElem (by rw [hlen]; exact hi)] at hv ⊢
    simp only [Option.map_some', Option.some.injEq] at hv
    by_cases hik : k = i <;> simp [hik, hv]
  · rw [List.getElem?_eq_none (by rw [hlen]; exact Nat.le_of_not_lt hi)]
    rw [List.getElem?_eq_none (by simpa using hi)]
    rfl

theorem dedup_leading (c : Nat) (step : Int) (hs : 1 ≤ step) :
    ((List.range c).map fun (j : Nat) => ((j : Int) + 1) * step).dedup =
      (List.range c).map fun (j : Nat) => ((j : Int) + 1) * step := by
  apply List.Nodup.dedup
  apply List.Nodup.map _ (List.nodup_range c)
  intro i j hij
  have hne : step ≠ 0 := by omega
  have h : ((i : Int) + 1) * step = ((j : Int) + 1) * step := hij
  have h2 := Int.eq_of_mul_eq_mul_right hne h
  omega

theorem map_value_buildBoxes (n : Nat) (step maxSaved : Int) :
    (buildBoxes n step maxSaved).map (fun cb => cb.value) =
      (List.range n).map fun (j : Nat) => ((j : Int) + 1) * step := by
  unfold buildBoxes
  rw [List.map_map]
  rfl

/-! ## Lemmas on the celebration and on the settings dialog -/

theorem mem_show_maybeCelebrate (s : Settings) (p n : Int) :
    Effect.showCelebrationMessage celebrationText ∈ maybeCelebrate s p n ↔
      p < s.GOAL ∧ s.GOAL ≤ n := by
  unfold maybeCelebrate launchConfetti
  constructor
  · intro h
    split_ifs at h <;> simp_all
  · intro ⟨h1, h2⟩
    have h3 : ¬ n ≤ p := by omega
    split_ifs <;> simp_all

theorem mem_big_maybeCelebrate (s : Settings) (p n : Int) :
    Effect.confettiPieces 180 ∈ maybeCelebrate s p n ↔
      s.CONFETTI_ENABLED = true ∧ p < s.GOAL ∧ s.GOAL ≤ n := by
  unfold maybeCelebrate launchConfetti
  constructor
  · intro h
    split_ifs at h <;> simp_all
  · intro ⟨h0, h1, h2⟩
    have h3 : ¬ n ≤ p := by omega
    split_ifs <;> simp_all

theorem count_small_maybeCelebrate (s : Settings) (p n : Int) :
    (maybeCelebrate s p n).count (Effect.confettiPieces 80) =
      if s.CONFETTI_ENABLED = true ∧ 0 < s.CONFETTI_INTERVAL ∧ p < n ∧
          mathFloorDiv p s.CONFETTI_INTERVAL < mathFloorDiv n s.CONFETTI_INTERVAL
      then 1 else 0 := by
  unfold maybeCelebrate launchConfetti
  by_cases h1 : n ≤ p
  · have h1' : ¬ p < n := by omega
    by_cases hg : n < s.GOAL <;> simp [h1, h1', hg]
  · have h1' : p < n := by omega
    by_cases he : s.CONFETTI_ENABLED = true <;>
    by_cases hi : 0 < s.CONFETTI_INTERVAL <;>
    by_cases hm : mathFloorDiv p s.CONFETTI_INTERVAL < mathFloorDiv n s.CONFETTI_INTERVAL <;>
    by_cases hg : n < s.GOAL <;>
    by_cases hgn : s.GOAL ≤ n <;>
    by_cases hp : p < s.GOAL <;>
    simp [h1, h1', he, hi, hm, hg, hgn, hp, List.count_cons, List.count_nil]

theorem mathFloorDiv_eq_floor (a b : Int) (hb : 0 < b) :
    mathFloorDiv a b = ⌊(a : ℚ) / (b : ℚ)⌋ := by
  unfold mathFloorDiv
  rw [Int.fdiv_eq_ediv a (le_of_lt hb)]
  have hb2 : ((b.toNat : ℕ) : ℤ) = b := Int.toNat_of_nonneg (le_of_lt hb)
  have := Rat.floor_intCast_div_natCast a b.toNat
  rw [hb2] at this
  rw [← this]
  congr 2
  rw [← hb2]
  push_cast
  rw [hb2]

theorem settingsFromInputs_valid (s : Settings) (inp : SettingsInputs) :
    (settingsFromInputs s inp).Valid := by
  unfold Settings.Valid settingsFromInputs
  exact ⟨le_max_left _ _, le_max_left _ _, le_max_left _ _⟩

theorem map_eq_returned {α β : Type} (f : α → β) (o : Outcome α) (r : β)
    (h : o.map f = Outcome.returned r) : ∃ a, o = Outcome.returned a ∧ f a = r := by
  cases o with
  | returned a =>
    refine ⟨a, rfl, ?_⟩
    have h2 : Outcome.returned (f a) = Outcome.returned r := h
    exact Outcome.returned.inj h2
  | threw st => exact Outcome.noConfusion h
  | diverges => exact Outcome.noConfusion h

theorem initBeforeSummary_mono (a b : Nat) (hab : a ≤ b) (st st2 : AppState)
    (h : initBeforeSummary a st = Outcome.returned st2) :
    initBeforeSummary b st = Outcome.returned st2 := by
  unfold initBeforeSummary at h ⊢
  simp only [] at h ⊢
  obtain ⟨x, hx, hfx⟩ := map_eq_returned _ _ _ h
  rw [buildGrid_mono a b hab _ _ hx]
  exact congrArg Outcome.returned hfx

theorem init_mono (a b : Nat) (hab : a ≤ b) (st : AppState) (r : AppState × List Effect)
    (h : init a st = Outcome.returned r) : init b st = Outcome.returned r := by
  unfold init at h ⊢
  obtain ⟨x, hx, hfx⟩ := map_eq_returned _ _ _ h
  rw [initBeforeSummary_mono a b hab _ _ hx]
  exact congrArg Outcome.returned hfx

theorem applySettingsBeforeSummary_mono (a b : Nat) (hab : a ≤ b) (st st2 : AppState)
    (inp : SettingsInputs) (h : applySettingsBeforeSummary a st inp = Outcome.returned st2) :
    applySettingsBeforeSummary b st inp = Outcome.returned st2 := by
  unfold applySettingsBeforeSummary at h ⊢
  simp only [] at h ⊢
  obtain ⟨x, hx, hfx⟩ := map_eq_returned _ _ _ h
  rw [buildGrid_mono a b hab _ _ hx]
  exact congrArg Outcome.returned hfx

theorem applySettingsFromInputs_mono (a b : Nat) (hab : a ≤ b) (st : AppState)
    (inp : SettingsInputs) (r : AppState × List Effect)
    (h : applySettingsFromInputs a st inp = Outcome.returned r) :
    applySettingsFromInputs b st inp = Outcome.returned r := by
  unfold applySettingsFromInputs at h ⊢
  obtain ⟨x, hx, hfx⟩ := map_eq_returned _ _ _ h
  rw [applySettingsBeforeSummary_mono a b hab _ _ _ hx]
  exact congrArg Outcome.returned hfx

theorem applySettingsBeforeSummary_returned (maxArgs : Nat) (st : AppState)
    (inp : SettingsInputs) (hlen : st.storedChecked.dedup.length ≤ maxArgs) :
    ∃ stB, applySettingsBeforeSummary maxArgs st inp = Outcome.returned stB ∧
      stB.settings = settingsFromInputs st.settings inp ∧
      stB.previousTotal = 0 ∧
      stB.storedChecked = st.storedChecked ∧
      stB.storedSettings = some
        ⟨some (settingsFromInputs st.settings inp).GOAL,
         some (settingsFromInputs st.settings inp).STEP,
         some (settingsFromInputs st.settings inp).CONFETTI_ENABLED,
         some (settingsFromInputs st.settings inp).CONFETTI_INTERVAL⟩ := by
  unfold applySettingsBeforeSummary
  have hs : 1 ≤ (saveSettings
      { st with settings := settingsFromInputs st.settings inp }).settings.STEP :=
    (settingsFromInputs_valid st.settings inp).2.1
  simp only []
  rw [buildGrid_returned maxArgs _ hs hlen]
  exact ⟨_, rfl, rfl, rfl, rfl, rfl⟩

theorem applySettingsFromInputs_threw (maxArgs : Nat) (st : AppState)
    (inp : SettingsInputs) (hlen : maxArgs < st.storedChecked.dedup.length) :
    applySettingsFromInputs maxArgs st inp = Outcome.threw
      { saveSettings { st with settings := settingsFromInputs st.settings inp } with
        grid := [] } := by
  unfold applySettingsFromInputs applySettingsBeforeSummary
  simp only []
  have h := buildGrid_threw maxArgs
    (saveSettings { st with settings := settingsFromInputs st.settings inp }) hlen
  rw [h]
  rfl

theorem applySettingsFromInputs_eq (maxArgs : Nat) (st : AppState) (inp : SettingsInputs)
    (stB : AppState) (h : applySettingsBeforeSummary maxArgs st inp = Outcome.returned stB) :
    applySettingsFromInputs maxArgs st inp = Outcome.returned (updateSummary stB) := by
  unfold applySettingsFromInputs
  rw [h]
  rfl

theorem buildGrid_returned_values (maxArgs : Nat) (st : AppState) (n : Nat)
    (hs : 1 ≤ st.settings.STEP) (hn : boxCount st.settings.GOAL st.settings.STEP = some n)
    (hlen : (loadChecked st).dedup.length ≤ maxArgs) :
    ∃ st0, buildGrid maxArgs st = Outcome.returned st0 ∧ st0.settings = st.settings ∧
      st0.grid.map (fun cb => cb.value) =
        (List.range n).map fun (j : Nat) => ((j : Int) + 1) * st.settings.STEP := by
  refine ⟨_, buildGrid_returned maxArgs st hs hlen, rfl, ?_⟩
  have hn2 := boxCount_of_pos st.settings.GOAL st.settings.STEP hs
  rw [hn] at hn2
  have hn3 : (max 1 (mathRoundDiv st.settings.GOAL st.settings.STEP)).toNat = n :=
    (Option.some.inj hn2).symm
  simp only []
  rw [hn3]
  exact map_value_buildBoxes n _ _

theorem toggle_leading (st : AppState) (n k : Nat) (d : Bool)
    (hgrid : st.grid.map (fun cb => cb.value) =
      (List.range n).map fun (j : Nat) => ((j : Int) + 1) * st.settings.STEP)
    (hk : k < n) :
    (toggle st k d).1.storedChecked =
        ((List.range (if d then k + 1 else k)).map
          fun (j : Nat) => ((j : Int) + 1) * st.settings.STEP) ∧
      (toggle st k d).1.grid = leadingGrid n st.settings.STEP (if d then k + 1 else k) := by
  have hgridEq := grid_toggle_eq_leadingGrid st n st.settings.STEP hgrid k d hk
  have hc : (if d then k + 1 else k) ≤ n := by
    cases d <;> simp <;> omega
  have h1 : (toggle st k d).1.storedChecked = newCheckedValues (toggle st k d).1.grid := by
    simp [toggle, changeHandler, updateSummary, saveChecked]
  refine ⟨?_, hgridEq⟩
  rw [h1, hgridEq, newCheckedValues_leadingGrid _ _ _ hc]

/-! ## The claims -/

/-- C2. Toggle rule: in a grid of any length and any checked state, the change
listener run after box `k` (0-based, inside the grid) was set to checked leaves
exactly the boxes at positions `< k + 1` checked, and run after box `k` was set
to unchecked leaves exactly the boxes at positions `< k` checked; the values of
the boxes are untouched, so the result is a function of `k` and the direction
alone. With goal 5000 and step 1000 the grid has the five boxes 1000..5000, all
unchecked (whatever the argument limit of the engine), and checking the third
box leaves the first three checked, a count of 3 and a total of 3000. -/
theorem toggle_rule :
    (∀ (st : AppState) (k : Nat) (d : Bool), k < st.grid.length →
      (toggle st k d).1.grid.length = st.grid.length ∧
      (toggle st k d).1.grid.map (fun cb => cb.value) = st.grid.map (fun cb => cb.value) ∧
      ∀ i, i < st.grid.length →
        ((toggle st k d).1.grid[i]?).map (fun cb => cb.checked) =
          some (decide (i < if d then k + 1 else k))) ∧
    (∃ st0 eff0,
      (∀ maxArgs : Nat, init maxArgs (startState (some ⟨some 5000, some 1000, none, none⟩) []) =
        Outcome.returned (st0, eff0)) ∧
      st0.grid = [⟨1000, false⟩, ⟨2000, false⟩, ⟨3000, false⟩, ⟨4000, false⟩, ⟨5000, false⟩] ∧
      (toggle st0 2 true).1.grid =
        [⟨1000, true⟩, ⟨2000, true⟩, ⟨3000, true⟩, ⟨4000, false⟩, ⟨5000, false⟩] ∧
      checkedCount (toggle st0 2 true).1.grid = 3 ∧
      totalAmount (toggle st0 2 true).1 = 3000) := by
  refine ⟨?_, ?_⟩
  · intro st k d hk
    refine ⟨length_grid_toggle st k d, ?_, ?_⟩
    · rw [grid_toggle]
      apply List.ext_getElem?
      intro i
      simp only [List.getElem?_map, getElem?_applyRule, setChecked, List.getElem?_modify]
      cases st.grid[i]? with
      | none => rfl
      | some b => by_cases hik : k = i <;> simp [hik]
    · intro i hi
      rw [grid_toggle, getElem?_applyRule, newCheckedCount_setChecked _ _ _ hk]
      have hi2 : i < (setChecked st.grid k d).length := by
        rw [length_setChecked]; exact hi
      rw [List.getElem?_eq_getElem hi2]
      rfl
  · refine ⟨_, _, fun maxArgs => init_mono 0 maxArgs (Nat.zero_le _) _ _ rfl, ?_⟩
    decide

/-- Witness of `toggle_rule`: the general rule applied to the second box of a
three-box grid whose only checked box is the last one. -/
theorem toggle_rule_witness :
    (toggle { startState none [] with grid := [⟨10, false⟩, ⟨20, false⟩, ⟨30, true⟩] }
        1 true).1.grid.map (fun cb => cb.checked) = [true, true, false] := by
  have h := (toggle_rule.1
    { startState none [] with grid := [⟨10, false⟩, ⟨20, false⟩, ⟨30, true⟩] }
    1 true (by decide)).2.2
  apply List.ext_getElem?
  intro i
  rw [List.getElem?_map]
  by_cases hi : i < 3
  · rw [h i hi]
    interval_cases i <;> rfl
  · have hlen := (toggle_rule.1
      { startState none [] with grid := [⟨10, false⟩, ⟨20, false⟩, ⟨30, true⟩] }
      1 true (by decide)).1
    have h3 : (3 : Nat) ≤ i := Nat.le_of_not_lt hi
    rw [List.getElem?_eq_none (by rw [hlen]; exact h3)]
    rw [List.getElem?_eq_none (by simpa using h3)]
    rfl

/-- C1. Leading-run invariant over reachable states: with `STEP ≥ 1` (and
`GOAL ≥ 1000`), whatever the stored checked values and the argument limit of
the engine are, `buildGrid` ends: it returns, and always does when the stored
set is within the limit, or it throws and leaves the grid empty. The grid it
leaves has its checked boxes forming a leading run, and so has the grid after
every initial part of every finite sequence of toggles (any index inside the
grid, either direction). -/
theorem leading_run_invariant (maxArgs : Nat) (st : AppState)
    (_hg : 1000 ≤ st.settings.GOAL) (hs : 1 ≤ st.settings.STEP) :
    ∃ st0, (buildGrid maxArgs st = Outcome.returned st0 ∨
        buildGrid maxArgs st = Outcome.threw st0) ∧
      ((loadChecked st).dedup.length ≤ maxArgs → buildGrid maxArgs st = Outcome.returned st0) ∧
      ∀ events : List (Nat × Bool), (∀ e ∈ events, e.1 < st0.grid.length) →
        ∀ m : Nat, LeadingRun (runToggles st0 (events.take m)).grid := by
  by_cases hlen : (loadChecked st).dedup.length ≤ maxArgs
  · refine ⟨_, Or.inl (buildGrid_returned maxArgs st hs hlen),
      fun _ => buildGrid_returned maxArgs st hs hlen, ?_⟩
    intro events _ m
    apply leadingRun_runToggles
    exact leadingRun_buildBoxes _ _ _ hs
  · refine ⟨_, Or.inr (buildGrid_threw maxArgs st (Nat.lt_of_not_le hlen)),
      fun h => absurd h hlen, ?_⟩
    intro events _ m
    apply leadingRun_runToggles
    exact leadingRun_nil

/-- Witness of `leading_run_invariant`: goal 5000, step 1000, stored values with
a gap and a value beyond the last box, an engine that takes 65536 arguments. -/
theorem leading_run_invariant_witness :
    ∃ st0, (buildGrid 65536 { startState none [2000, 9000] with
          settings := ⟨5000, 1000, true, 2000⟩ } = Outcome.returned st0 ∨
        buildGrid 65536 { startState none [2000, 9000] with
          settings := ⟨5000, 1000, true, 2000⟩ } = Outcome.threw st0) ∧
      ((loadChecked { startState none [2000, 9000] with
          settings := ⟨5000, 1000, true, 2000⟩ }).dedup.length ≤ 65536 →
        buildGrid 65536 { startState none [2000, 9000] with
          settings := ⟨5000, 1000, true, 2000⟩ } = Outcome.returned st0) ∧
      ∀ events : List (Nat × Bool), (∀ e ∈ events, e.1 < st0.grid.length) →
        ∀ m : Nat, LeadingRun (runToggles st0 (events.take m)).grid :=
  leading_run_invariant 65536
    { startState none [2000, 9000] with settings := ⟨5000, 1000, true, 2000⟩ }
    (by decide) (by decide)

/-- C3 as stated fails: with goal 5000, step 1000 and the stored list `[9000]`,
whose maximum 9000 lies beyond the last box, the grid `buildGrid` returns (on
every engine that takes at least one argument) has 5 checked boxes, not
`floor(9000 / 1000) = 9`. -/
theorem rebuild_count_counterexample :
    ∃ st0, (∀ maxArgs : Nat, 1 ≤ maxArgs →
        buildGrid maxArgs rebuildCountInput = Outcome.returned st0) ∧
      (9000 : Int) ∈ rebuildCountInput.storedChecked ∧
      (∀ y ∈ rebuildCountInput.storedChecked, y ≤ 9000) ∧
      checkedCount st0.grid = 5 ∧
      mathFloorDiv 9000 rebuildCountInput.settings.STEP = 9 ∧
      (checkedCount st0.grid : Int) ≠ mathFloorDiv 9000 rebuildCountInput.settings.STEP := by
  refine ⟨_, fun maxArgs h => buildGrid_mono 1 maxArgs h _ _ rfl, ?_⟩
  decide

/-- C3, amended. Rebuild count: with `GOAL ≥ 1000`, `STEP ≥ 1` and a non-empty
stored list whose maximum is `V` (gaps and values beyond the last box allowed)
and whose set of values is within the argument limit of the engine, `buildGrid`
returns a grid of `boxCount` boxes of which exactly
`min(boxCount, max(0, floor(V / STEP)))` are checked. -/
theorem rebuild_count (maxArgs : Nat) (st : AppState) (V : Int)
    (_hg : 1000 ≤ st.settings.GOAL) (hs : 1 ≤ st.settings.STEP)
    (hlen : (loadChecked st).dedup.length ≤ maxArgs) (hmem : V ∈ loadChecked st)
    (hmax : ∀ y ∈ loadChecked st, y ≤ V) :
    ∃ st0 n, buildGrid maxArgs st = Outcome.returned st0 ∧
      boxCount st.settings.GOAL st.settings.STEP = some n ∧
      st0.grid.length = n ∧
      checkedCount st0.grid = min n (mathFloorDiv V st.settings.STEP).toNat := by
  refine ⟨_, _, buildGrid_returned maxArgs st hs hlen, boxCount_of_pos _ _ hs, ?_, ?_⟩
  · simp [buildBoxes]
  · simp only []
    rw [savedMax_eq _ V hmem hmax, buildBoxes_eq_leadingGrid _ _ _ hs,
      checkedCount_leadingGrid]
    unfold mathFloorDiv
    rw [Int.fdiv_eq_ediv V (by omega : (0 : Int) ≤ st.settings.STEP)]

/-- Witness of `rebuild_count`: goal 5000, step 1000, stored `[2000, 9000]`, an
engine that takes 65536 arguments. -/
theorem rebuild_count_witness :
    ∃ st0 n, buildGrid 65536 { startState none [2000, 9000] with
        settings := ⟨5000, 1000, true, 2000⟩ } = Outcome.returned st0 ∧
      boxCount 5000 1000 = some n ∧ st0.grid.length = n ∧
      checkedCount st0.grid = min n (mathFloorDiv 9000 1000).toNat :=
  rebuild_count 65536
    { startState none [2000, 9000] with settings := ⟨5000, 1000, true, 2000⟩ }
    9000 (by decide) (by decide) (by decide) (by decide) (by decide)

/-- C10, the code at a failing input: with goal 130000 and step 1 `buildGrid`
returns (on every engine, the stored list being empty) a grid of the 130000
boxes valued 1 to 130000. On such a grid, in any checked state, checking the
last box leaves all 130000 boxes checked and stores the list
`[1, 2, ..., 130000]`; on an engine that takes fewer than 130000 arguments in
one call, `buildGrid` run on that list (from any grid) throws at
`Math.max(...savedChecked)` and leaves the grid empty instead of reproducing
the checked state. -/
theorem persistence_round_trip_failing_input :
    boxCount 130000 1 = some 130000 ∧
    (∀ maxArgs : Nat, ∃ st0, buildGrid maxArgs roundTripStart = Outcome.returned st0 ∧
      st0.settings = ⟨130000, 1, true, 10000⟩ ∧
      st0.grid.map (fun cb => cb.value) =
        (List.range 130000).map fun (j : Nat) => ((j : Int) + 1) * 1) ∧
    ∀ st : AppState, st.settings = ⟨130000, 1, true, 10000⟩ →
      st.grid.map (fun cb => cb.value) =
        ((List.range 130000).map fun (j : Nat) => ((j : Int) + 1) * 1) →
      (toggle st 129999 true).1.storedChecked =
        ((List.range 130000).map fun (j : Nat) => ((j : Int) + 1) * 1) ∧
      checkedCount (toggle st 129999 true).1.grid = 130000 ∧
      ∀ (maxArgs : Nat) (g : List Box), maxArgs < 130000 →
        buildGrid maxArgs { (toggle st 129999 true).1 with grid := g } =
          Outcome.threw { (toggle st 129999 true).1 with grid := [] } := by
  have hn : boxCount 130000 1 = some 130000 := by decide
  refine ⟨hn, ?_, ?_⟩
  · intro maxArgs
    obtain ⟨st0, h0, hset, hval⟩ := buildGrid_returned_values maxArgs roundTripStart 130000
      (by decide) hn (Nat.zero_le maxArgs)
    exact ⟨st0, h0, hset, hval⟩
  · intro st hset hgrid
    have hstep : st.settings.STEP = 1 := by rw [hset]
    have hgrid2 : st.grid.map (fun cb => cb.value) =
        (List.range 130000).map fun (j : Nat) => ((j : Int) + 1) * st.settings.STEP := by
      rw [hstep]
      exact hgrid
    have ht := toggle_leading st 130000 129999 true hgrid2 (by decide)
    have hc : (if (true : Bool) = true then 129999 + 1 else 129999) = 130000 := rfl
    rw [hc, hstep] at ht
    obtain ⟨hstored, hg⟩ := ht
    refine ⟨hstored, ?_, ?_⟩
    · rw [hg, checkedCount_leadingGrid, Nat.min_self]
    · intro maxArgs g hlt
      have hthrow := buildGrid_threw maxArgs { (toggle st 129999 true).1 with grid := g }
        (by
          show maxArgs < ((toggle st 129999 true).1.storedChecked).dedup.length
          rw [hstored, dedup_leading 130000 1 (by decide), List.length_map, List.length_range]
          exact hlt)
      exact hthrow

/-- Within the argument limit the round trip of C10 holds: with `GOAL ≥ 1000`
and `STEP ≥ 1`, on a grid that holds the boxes of these settings in any checked
state, a toggle of any box `k` inside the grid in either direction stores the
list `[STEP, 2 * STEP, ..., c * STEP]`, where `c` is the new number of checked
boxes, leaves exactly the first `c` boxes checked, and when `c` is at most the
argument limit, `buildGrid` run on that storage from any grid whatever builds
the grid the toggle left. -/
theorem persistence_round_trip_within_limit (maxArgs : Nat) (st : AppState) (n k : Nat)
    (d : Bool) (g : List Box) (_hg : 1000 ≤ st.settings.GOAL) (hs : 1 ≤ st.settings.STEP)
    (hn : boxCount st.settings.GOAL st.settings.STEP = some n)
    (hgrid : st.grid.map (fun cb => cb.value) =
      (List.range n).map fun (j : Nat) => ((j : Int) + 1) * st.settings.STEP)
    (hk : k < n) (hlim : (if d then k + 1 else k) ≤ maxArgs) :
    (toggle st k d).1.storedChecked =
        ((List.range (if d then k + 1 else k)).map
          fun (j : Nat) => ((j : Int) + 1) * st.settings.STEP) ∧
      (toggle st k d).1.grid = leadingGrid n st.settings.STEP (if d then k + 1 else k) ∧
      ∃ st2, buildGrid maxArgs { (toggle st k d).1 with grid := g } = Outcome.returned st2 ∧
        st2.grid = (toggle st k d).1.grid := by
  obtain ⟨hstored, hgridEq⟩ := toggle_leading st n k d hgrid hk
  refine ⟨hstored, hgridEq, ?_⟩
  have hset : ({ (toggle st k d).1 with grid := g } : AppState).settings = st.settings :=
    settings_toggle st k d
  have hs2 : 1 ≤ ({ (toggle st k d).1 with grid := g } : AppState).settings.STEP := by
    rw [hset]; exact hs
  have hload : loadChecked { (toggle st k d).1 with grid := g } =
      ((List.range (if d then k + 1 else k)).map
        fun (j : Nat) => ((j : Int) + 1) * st.settings.STEP) := hstored
  have hlen : (loadChecked { (toggle st k d).1 with grid := g }).dedup.length ≤ maxArgs := by
    rw [hload, dedup_leading _ _ hs, List.length_map, List.length_range]
    exact hlim
  refine ⟨_, buildGrid_returned maxArgs _ hs2 hlen, ?_⟩
  simp only []
  rw [hload, hgridEq, hset, savedMax_leading _ _ hs, buildBoxes_eq_leadingGrid _ _ _ hs]
  have hn2 := boxCount_of_pos st.settings.GOAL st.settings.STEP hs
  rw [hn] at hn2
  have hn3 : (max 1 (mathRoundDiv st.settings.GOAL st.settings.STEP)).toNat = n :=
    (Option.some.inj hn2).symm
  rw [hn3, Int.mul_ediv_cancel _ (by omega : st.settings.STEP ≠ 0), Int.toNat_ofNat]

/-- C4 as stated fails: with confetti disabled, goal 5000 and the step from
4000 to 5000 (so `prev < goal ≤ new`), `maybeCelebrate` shows the message but
launches no big confetti burst. -/
theorem major_celebration_counterexample :
    (4000 : Int) < (⟨5000, 1000, false, 10000⟩ : Settings).GOAL ∧
      (⟨5000, 1000, false, 10000⟩ : Settings).GOAL ≤ 5000 ∧
      maybeCelebrate ⟨5000, 1000, false, 10000⟩ 4000 5000 =
        [Effect.showCelebrationMessage celebrationText] ∧
      Effect.confettiPieces 180 ∉ maybeCelebrate ⟨5000, 1000, false, 10000⟩ 4000 5000 := by
  decide

/-- C4, amended. Major celebration: for every previous total, new total and
settings, `maybeCelebrate` shows the congratulatory message iff
`prev < GOAL ≤ new`, whatever the confetti flag and the interval, and launches
the big confetti burst iff confetti is enabled and `prev < GOAL ≤ new`; neither
condition depends on whether the small burst is launched. -/
theorem major_celebration (s : Settings) (prevTotal newTotal : Int) :
    (Effect.showCelebrationMessage celebrationText ∈ maybeCelebrate s prevTotal newTotal ↔
      prevTotal < s.GOAL ∧ s.GOAL ≤ newTotal) ∧
    (Effect.confettiPieces 180 ∈ maybeCelebrate s prevTotal newTotal ↔
      s.CONFETTI_ENABLED = true ∧ prevTotal < s.GOAL ∧ s.GOAL ≤ newTotal) :=
  ⟨mem_show_maybeCelebrate s prevTotal newTotal, mem_big_maybeCelebrate s prevTotal newTotal⟩

/-- C5. Minor celebration: for all totals (non-negative or not) and all
settings, `maybeCelebrate` launches the small confetti burst iff confetti is
enabled, the interval is positive, `new > prev` and
`floor(prev / interval) < floor(new / interval)`; it never launches it more
than once. -/
theorem minor_celebration (s : Settings) (prevTotal newTotal : Int) :
    (Effect.confettiPieces 80 ∈ maybeCelebrate s prevTotal newTotal ↔
      s.CONFETTI_ENABLED = true ∧ 0 < s.CONFETTI_INTERVAL ∧ prevTotal < newTotal ∧
        ⌊(prevTotal : ℚ) / (s.CONFETTI_INTERVAL : ℚ)⌋ <
          ⌊(newTotal : ℚ) / (s.CONFETTI_INTERVAL : ℚ)⌋) ∧
    (maybeCelebrate s prevTotal newTotal).count (Effect.confettiPieces 80) ≤ 1 := by
  have hc := count_small_maybeCelebrate s prevTotal newTotal
  constructor
  · rw [← List.count_pos_iff, hc]
    constructor
    · intro h
      split_ifs at h with hcond
      · obtain ⟨he, hi, hlt, hm⟩ := hcond
        rw [mathFloorDiv_eq_floor _ _ hi, mathFloorDiv_eq_floor _ _ hi] at hm
        exact ⟨he, hi, hlt, hm⟩
      · exact absurd h (by decide)
    · intro ⟨he, hi, hlt, hm⟩
      rw [← mathFloorDiv_eq_floor _ _ hi, ← mathFloorDiv_eq_floor _ _ hi] at hm
      rw [if_pos ⟨he, hi, hlt, hm⟩]
      exact Nat.one_pos
  · rw [hc]
    split_ifs <;> simp

/-- C9 as stated fails: after a start with goal 5000, step 1000 and interval
2000 (on any engine), saving the inputs goal 500, step 0, interval -5 stores
goal 1000 and interval 1, but step 1000 (the previous step), not
`max(1, 0) = 1`. -/
theorem settings_clamp_counterexample :
    ∃ st0 eff0 st1 eff1,
      (∀ maxArgs : Nat,
        init maxArgs (startState (some ⟨some 5000, some 1000, some true, some 2000⟩) []) =
          Outcome.returned (st0, eff0)) ∧
      (∀ maxArgs : Nat,
        applySettingsFromInputs maxArgs st0 ⟨some 500, some 0, some (-5), true⟩ =
          Outcome.returned (st1, eff1)) ∧
      st1.settings.GOAL = 1000 ∧ st1.settings.CONFETTI_INTERVAL = 1 ∧
      st1.settings.STEP = 1000 ∧ st1.settings.STEP ≠ max 1 0 ∧
      st1.storedSettings = some ⟨some 1000, some 1000, some true, some 1⟩ := by
  refine ⟨_, _, _, _, fun maxArgs => init_mono 0 maxArgs (Nat.zero_le _) _ _ rfl,
    fun maxArgs => applySettingsFromInputs_mono 0 maxArgs (Nat.zero_le _) _ _ _ rfl, ?_⟩
  decide

/-- C9, amended. Settings clamp: for every prior state, every engine and all
numeric raw inputs `g`, `s`, `i`, `applySettingsFromInputs` ends (it returns
when the stored checked values are within the argument limit, and otherwise
throws in `buildGrid`, after the settings were assigned and saved), and it
stores `GOAL = max(1000, g)`, `STEP = max(1, s)` and
`CONFETTI_INTERVAL = max(1, i)`, where an input that is zero is first replaced
by the previous goal, the previous step and the default interval 10000
respectively; the record written to the storage holds the same values. -/
theorem settings_clamp (maxArgs : Nat) (st : AppState) (g s i : Int) (e : Bool) :
    ∃ st1,
      ((∃ eff, applySettingsFromInputs maxArgs st ⟨some g, some s, some i, e⟩ =
          Outcome.returned (st1, eff)) ∨
        applySettingsFromInputs maxArgs st ⟨some g, some s, some i, e⟩ = Outcome.threw st1) ∧
      (st.storedChecked.dedup.length ≤ maxArgs →
        ∃ eff, applySettingsFromInputs maxArgs st ⟨some g, some s, some i, e⟩ =
          Outcome.returned (st1, eff)) ∧
      st1.settings.GOAL = max 1000 (if g = 0 then st.settings.GOAL else g) ∧
      st1.settings.STEP = max 1 (if s = 0 then st.settings.STEP else s) ∧
      st1.settings.CONFETTI_INTERVAL = max 1 (if i = 0 then 10000 else i) ∧
      st1.settings.CONFETTI_ENABLED = e ∧
      st1.storedSettings = some
        ⟨some st1.settings.GOAL, some st1.settings.STEP,
         some st1.settings.CONFETTI_ENABLED, some st1.settings.CONFETTI_INTERVAL⟩ := by
  by_cases hlen : st.storedChecked.dedup.length ≤ maxArgs
  · obtain ⟨stB, hB, hset, _, _, hstored⟩ :=
      applySettingsBeforeSummary_returned maxArgs st ⟨some g, some s, some i, e⟩ hlen
    have hret := applySettingsFromInputs_eq maxArgs st _ stB hB
    refine ⟨(updateSummary stB).1, Or.inl ⟨(updateSummary stB).2, hret⟩,
      fun _ => ⟨(updateSummary stB).2, hret⟩, ?_⟩
    have h1 : (updateSummary stB).1.settings = stB.settings := rfl
    have h2 : (updateSummary stB).1.storedSettings = stB.storedSettings := rfl
    rw [h1, h2, hset, hstored]
    exact ⟨rfl, rfl, rfl, rfl, rfl⟩
  · refine ⟨_, Or.inr (applySettingsFromInputs_threw maxArgs st _ (Nat.lt_of_not_le hlen)),
      fun h => absurd h hlen, ?_⟩
    exact ⟨rfl, rfl, rfl, rfl, rfl⟩

/-- C6 as stated fails: after a start with goal 3000, step 1000, interval 2000
and all three boxes checked (which fires nothing), on every engine that takes
at least three arguments, saving the unchanged settings sets `previousTotal` to
0 although the rebuilt grid totals 3000, and fires the small burst, the big
burst and the message. -/
theorem settings_change_cursor_counterexample :
    ∃ st0 eff0 stB st1 eff1,
      (∀ maxArgs : Nat, 3 ≤ maxArgs →
        init maxArgs (startState (some ⟨some 3000, some 1000, some true, some 2000⟩)
          [1000, 2000, 3000]) = Outcome.returned (st0, eff0) ∧
        applySettingsBeforeSummary maxArgs st0 ⟨some 3000, some 1000, some 2000, true⟩ =
          Outcome.returned stB ∧
        applySettingsFromInputs maxArgs st0 ⟨some 3000, some 1000, some 2000, true⟩ =
          Outcome.returned (st1, eff1)) ∧
      eff0 = [] ∧ stB.previousTotal = 0 ∧ totalAmount stB = 3000 ∧
      eff1 = [Effect.confettiPieces 80, Effect.confettiPieces 180,
        Effect.showCelebrationMessage celebrationText] := by
  refine ⟨_, _, _, _, _, fun maxArgs h =>
    ⟨init_mono 3 maxArgs h _ _ rfl,
     applySettingsBeforeSummary_mono 3 maxArgs h _ _ _ rfl,
     applySettingsFromInputs_mono 3 maxArgs h _ _ _ rfl⟩, ?_⟩
  decide

/-- C6, amended. Milestone cursor after a settings change: for every state
whose stored checked values are within the argument limit of the engine and all
raw inputs, `applySettingsFromInputs` returns; before the celebration
transition is evaluated it sets `previousTotal` to zero, the transition
evaluated is the one from 0 to the total of the rebuilt grid, and afterwards
`previousTotal` is that total. Hence saving settings shows the message iff the
rebuilt total is at or above the goal, launches the big burst iff moreover
confetti is enabled, and launches the small burst iff confetti is enabled and
the rebuilt total is at least one interval. -/
theorem settings_change_cursor (maxArgs : Nat) (st : AppState) (inp : SettingsInputs)
    (hlen : st.storedChecked.dedup.length ≤ maxArgs) :
    ∃ stB st1 eff,
      applySettingsBeforeSummary maxArgs st inp = Outcome.returned stB ∧
      applySettingsFromInputs maxArgs st inp = Outcome.returned (st1, eff) ∧
      stB.previousTotal = 0 ∧
      eff = maybeCelebrate stB.settings 0 (totalAmount stB) ∧
      st1.previousTotal = totalAmount stB ∧ totalAmount st1 = totalAmount stB ∧
      (Effect.showCelebrationMessage celebrationText ∈ eff ↔
        st1.settings.GOAL ≤ totalAmount st1) ∧
      (Effect.confettiPieces 180 ∈ eff ↔
        st1.settings.CONFETTI_ENABLED = true ∧ st1.settings.GOAL ≤ totalAmount st1) ∧
      (Effect.confettiPieces 80 ∈ eff ↔
        st1.settings.CONFETTI_ENABLED = true ∧
          st1.settings.CONFETTI_INTERVAL ≤ totalAmount st1) := by
  obtain ⟨stB, hB, hset, hprev, _, _⟩ :=
    applySettingsBeforeSummary_returned maxArgs st inp hlen
  have hvalid : stB.settings.Valid := by
    rw [hset]; exact settingsFromInputs_valid _ _
  obtain ⟨hgoal, _, hint⟩ := hvalid
  have heff : (updateSummary stB).2 = maybeCelebrate stB.settings 0 (totalAmount stB) := by
    simp [updateSummary, hprev]
  refine ⟨stB, (updateSummary stB).1, (updateSummary stB).2, hB,
    applySettingsFromInputs_eq maxArgs st inp stB hB, hprev, heff, rfl, rfl, ?_, ?_, ?_⟩
  · rw [heff, mem_show_maybeCelebrate]
    show 0 < stB.settings.GOAL ∧ stB.settings.GOAL ≤ totalAmount stB ↔
      stB.settings.GOAL ≤ totalAmount stB
    constructor
    · exact fun h => h.2
    · exact fun h => ⟨by omega, h⟩
  · rw [heff, mem_big_maybeCelebrate]
    show stB.settings.CONFETTI_ENABLED = true ∧
        0 < stB.settings.GOAL ∧ stB.settings.GOAL ≤ totalAmount stB ↔
      stB.settings.CONFETTI_ENABLED = true ∧ stB.settings.GOAL ≤ totalAmount stB
    constructor
    · exact fun h => ⟨h.1, h.2.2⟩
    · exact fun h => ⟨h.1, by omega, h.2⟩
  · rw [heff, ← List.count_pos_iff, count_small_maybeCelebrate]
    show 0 < (if stB.settings.CONFETTI_ENABLED = true ∧ 0 < stB.settings.CONFETTI_INTERVAL ∧
          0 < totalAmount stB ∧
          mathFloorDiv 0 stB.settings.CONFETTI_INTERVAL <
            mathFloorDiv (totalAmount stB) stB.settings.CONFETTI_INTERVAL
        then 1 else 0) ↔
      stB.settings.CONFETTI_ENABLED = true ∧ stB.settings.CONFETTI_INTERVAL ≤ totalAmount stB
    have hipos : 0 < stB.settings.CONFETTI_INTERVAL := by omega
    have hfloor : mathFloorDiv 0 stB.settings.CONFETTI_INTERVAL <
          mathFloorDiv (totalAmount stB) stB.settings.CONFETTI_INTERVAL ↔
        stB.settings.CONFETTI_INTERVAL ≤ totalAmount stB := by
      unfold mathFloorDiv
      rw [Int.fdiv_eq_ediv _ (le_of_lt hipos), Int.fdiv_eq_ediv _ (le_of_lt hipos),
        Int.zero_ediv]
      have := Int.le_ediv_iff_mul_le (a := 1) (b := totalAmount stB) hipos
      rw [Int.one_mul] at this
      constructor
      · intro h; exact this.1 h
      · intro h; exact this.2 h
    constructor
    · intro h
      split_ifs at h with hc
      · exact ⟨hc.1, hfloor.1 hc.2.2.2⟩
      · exact absurd h (by decide)
    · intro ⟨he, hle⟩
      rw [if_pos ⟨he, hipos, by omega, hfloor.2 hle⟩]
      exact Nat.one_pos

/-- Witness of `settings_change_cursor`: goal 3000, step 1000, interval 2000,
stored `[1000, 2000, 3000]`, an engine that takes 65536 arguments, the inputs
unchanged. -/
theorem settings_change_cursor_witness :
    ∃ stB st1 eff,
      applySettingsBeforeSummary 65536
        { startState none [1000, 2000, 3000] with settings := ⟨3000, 1000, true, 2000⟩ }
        ⟨some 3000, some 1000, some 2000, true⟩ = Outcome.returned stB ∧
      applySettingsFromInputs 65536
        { startState none [1000, 2000, 3000] with settings := ⟨3000, 1000, true, 2000⟩ }
        ⟨some 3000, some 1000, some 2000, true⟩ = Outcome.returned (st1, eff) ∧
      stB.previousTotal = 0 ∧
      eff = maybeCelebrate stB.settings 0 (totalAmount stB) ∧
      st1.previousTotal = totalAmount stB ∧ totalAmount st1 = totalAmount stB ∧
      (Effect.showCelebrationMessage celebrationText ∈ eff ↔
        st1.settings.GOAL ≤ totalAmount st1) ∧
      (Effect.confettiPieces 180 ∈ eff ↔
        st1.settings.CONFETTI_ENABLED = true ∧ st1.settings.GOAL ≤ totalAmount st1) ∧
      (Effect.confettiPieces 80 ∈ eff ↔
        st1.settings.CONFETTI_ENABLED = true ∧
          st1.settings.CONFETTI_INTERVAL ≤ totalAmount st1) :=
  settings_change_cursor 65536
    { startState none [1000, 2000, 3000] with settings := ⟨3000, 1000, true, 2000⟩ }
    ⟨some 3000, some 1000, some 2000, true⟩ (by decide)

/-- C7, the code at a failing input: with the stored settings goal 3000, step
1000, interval 2000 and the stored list `[3000]` (a single high value), on
every engine that takes at least one argument, `init` sets `previousTotal` to
`1 * 1000 = 1000` while the freshly built grid has 3 checked boxes and totals
3000, so the first summary update fires the small burst, the big burst and the
message at startup. -/
theorem startup_cursor_failing_input :
    ∃ stB st1 eff,
      (∀ maxArgs : Nat, 1 ≤ maxArgs →
        initBeforeSummary maxArgs
          (startState (some ⟨some 3000, some 1000, some true, some 2000⟩) [3000]) =
            Outcome.returned stB ∧
        init maxArgs (startState (some ⟨some 3000, some 1000, some true, some 2000⟩) [3000]) =
          Outcome.returned (st1, eff)) ∧
      stB.previousTotal = 1000 ∧ checkedCount stB.grid = 3 ∧ totalAmount stB = 3000 ∧
      eff = [Effect.confettiPieces 80, Effect.confettiPieces 180,
        Effect.showCelebrationMessage celebrationText] := by
  refine ⟨_, _, _, fun maxArgs h =>
    ⟨initBeforeSummary_mono 1 maxArgs h _ _ rfl, init_mono 1 maxArgs h _ _ rfl⟩, ?_⟩
  decide

/-- The failing input of C7 arises from the script itself: start with goal
3000 and step 3000 (one box), check the box (stored list `[3000]`), save the
settings with step 1000 (the stored list is left as it is), then reload. -/
theorem startup_cursor_failing_input_reachable :
    ∃ st0 eff0 st2 eff2,
      (∀ maxArgs : Nat, 1 ≤ maxArgs →
        init maxArgs (startState (some ⟨some 3000, some 3000, some true, some 2000⟩) []) =
          Outcome.returned (st0, eff0) ∧
        applySettingsFromInputs maxArgs (toggle st0 0 true).1
          ⟨some 3000, some 1000, some 2000, true⟩ = Outcome.returned (st2, eff2)) ∧
      st2.storedSettings = some ⟨some 3000, some 1000, some true, some 2000⟩ ∧
      st2.storedChecked = [3000] := by
  refine ⟨_, _, _, _, fun maxArgs h =>
    ⟨init_mono 1 maxArgs h _ _ rfl, applySettingsFromInputs_mono 1 maxArgs h _ _ _ rfl⟩, ?_⟩
  decide

/-- C8, the code at a failing input: with the stored settings record
`{goal: 500, step: 100, confettiEnabled: true, confettiInterval: -5}` and no
stored checked values, on every engine, `init` returns and the settings in
force are exactly the stored ones, with a goal below 1000 and an interval
below 1. -/
theorem settings_validity_failing_input :
    ∃ st1 eff,
      (∀ maxArgs : Nat,
        init maxArgs (startState (some ⟨some 500, some 100, some true, some (-5)⟩) []) =
          Outcome.returned (st1, eff)) ∧
      st1.settings = ⟨500, 100, true, -5⟩ ∧ ¬ st1.settings.Valid := by
  refine ⟨_, _, fun maxArgs => init_mono 0 maxArgs (Nat.zero_le _) _ _ rfl, ?_⟩
  decide

/-- With a stored step of zero and a positive goal, the loop of `buildGrid`
does not end, so `init` does not return, on any engine. -/
theorem init_step_zero (maxArgs : Nat) :
    init maxArgs (startState (some ⟨some 1000, some 0, some true, some 10000⟩) []) =
      Outcome.diverges := by
  rfl

/-- The part of C8 that holds: whatever the state, the engine and the raw
inputs, `applySettingsFromInputs` ends, by returning or by the throw of
`buildGrid`, and leaves settings within the ranges. -/
theorem applySettingsFromInputs_valid (maxArgs : Nat) (st : AppState) (inp : SettingsInputs) :
    ∃ st1, ((∃ eff, applySettingsFromInputs maxArgs st inp = Outcome.returned (st1, eff)) ∨
        applySettingsFromInputs maxArgs st inp = Outcome.threw st1) ∧
      st1.settings.Valid := by
  by_cases hlen : st.storedChecked.dedup.length ≤ maxArgs
  · obtain ⟨stB, hB, hset, _, _, _⟩ := applySettingsBeforeSummary_returned maxArgs st inp hlen
    refine ⟨(updateSummary stB).1,
      Or.inl ⟨(updateSummary stB).2, applySettingsFromInputs_eq maxArgs st inp stB hB⟩, ?_⟩
    have h1 : (updateSummary stB).1.settings = stB.settings := rfl
    rw [h1, hset]
    exact settingsFromInputs_valid _ _
  · refine ⟨_, Or.inr (applySettingsFromInputs_threw maxArgs st inp (Nat.lt_of_not_le hlen)), ?_⟩
    exact settingsFromInputs_valid _ _

/-- At startup the ranges hold when the stored record is absent or when each
numeric field it has is within its range, as in every record `saveSettings`
writes after `applySettingsFromInputs` (the stored checked values being within
the argument limit, so that `init` returns). -/
theorem init_valid_of_record (maxArgs : Nat) (storedSettings : Option SettingsRecord)
    (storedChecked : List Int) (hlen : storedChecked.dedup.length ≤ maxArgs)
    (h : ∀ r, storedSettings = some r →
      (∀ g, r.goal = some g → 1000 ≤ g) ∧ (∀ s, r.step = some s → 1 ≤ s) ∧
      (∀ i, r.confettiInterval = some i → 1 ≤ i)) :
    ∃ st1 eff, init maxArgs (startState storedSettings storedChecked) =
        Outcome.returned (st1, eff) ∧ st1.settings.Valid := by
  have hv : (initSettings defaultSettings storedSettings).Valid := by
    cases storedSettings with
    | none => decide
    | some r =>
      obtain ⟨hg, hs, hi⟩ := h r rfl
      obtain ⟨g, s, e, i⟩ := r
      refine ⟨?_, ?_, ?_⟩
      · cases g with
        | none => show (1000 : Int) ≤ DEFAULT_GOAL; decide
        | some g => exact hg g rfl
      · cases s with
        | none => show (1 : Int) ≤ DEFAULT_STEP; decide
        | some s => exact hs s rfl
      · cases i with
        | none => show (1 : Int) ≤ DEFAULT_CONFETTI_INTERVAL; decide
        | some i => exact hi i rfl
  have hs : 1 ≤ ({ startState storedSettings storedChecked with
      settings := initSettings (startState storedSettings storedChecked).settings
        (loadSettings (startState storedSettings storedChecked)) } : AppState).settings.STEP :=
    hv.2.1
  have hB : ∃ stB, initBeforeSummary maxArgs (startState storedSettings storedChecked) =
      Outcome.returned stB ∧ stB.settings = initSettings defaultSettings storedSettings := by
    unfold initBeforeSummary
    simp only []
    rw [buildGrid_returned maxArgs _ hs hlen]
    exact ⟨_, rfl, rfl⟩
  obtain ⟨stB, hB1, hB2⟩ := hB
  refine ⟨(updateSummary stB).1, (updateSummary stB).2, ?_, ?_⟩
  · unfold init
    rw [hB1]
    rfl
  · have h1 : (updateSummary stB).1.settings = stB.settings := rfl
    rw [h1, hB2]
    exact hv

end SavingsTracker
